import Mathlib

/-!
Verification of the credential-vault / deep-link authentication core of the
pinac-workspace desktop application.

The embedding translates the Electron main-process module (single-instance
lock, deep-link callback handler `parseAuthDataFromUrl`, `check-auth` and
`logout` IPC handlers) and the `SecureMasterKeyManager` utility class into
pure Lean functions over an explicit filesystem/vault state.  Node and WHATWG
platform primitives (`fs`, `crypto`, `new URL`, `URLSearchParams`,
`decodeURIComponent`, `JSON.parse`, `JSON.stringify`) are modelled as
executable Lean functions faithful to their documented behaviour on the
inputs this module feeds them (ASCII payloads, flat string-valued JSON
objects); I/O failures are injected through explicit `failing` /
`vaultFailing` sets in the state.
-/

set_option autoImplicit false

namespace Pinac

instance exceptDecEq {ε α : Type} [DecidableEq ε] [DecidableEq α] :
    DecidableEq (Except ε α)
  | .error x, .error y => decidable_of_iff (x = y) (by simp)
  | .error _, .ok _ => isFalse (by simp)
  | .ok _, .error _ => isFalse (by simp)
  | .ok x, .ok y => decidable_of_iff (x = y) (by simp)

/-- One file on disk: path, contents, and POSIX mode bits. -/
structure FileRec where
  path : String
  contents : String
  mode : Nat
deriving Repr, DecidableEq

/-- The mutable world the auth core touches: plain files, directories, the
(spec-modelled) encrypted token vault, plus failure-injection sets naming the
paths / vault entries whose I/O operations fail. -/
structure FSState where
  files : List FileRec
  dirs : List String
  failing : List String
  vault : List (String × String)
  vaultFailing : List String
deriving Repr, DecidableEq

def emptyFS : FSState := ⟨[], [], [], [], []⟩

/-- Node `path.join` restricted to the two-segment joins this module performs. -/
def pathJoin (a b : String) : String := a ++ "/" ++ b

/-- `app.getPath("userData")`, fixed to a representative location. -/
def userDataPath : String := "/userData"

/-- `fs.existsSync`: a pure existence check; never throws. -/
def existsSync (fs : FSState) (p : String) : Bool :=
  (fs.files.find? (fun f => f.path == p)).isSome

/-- `fs.readFileSync(p, "utf8")`: throws when the path is failure-injected or
absent. -/
def readFileSync (fs : FSState) (p : String) : Except String String :=
  if fs.failing.contains p then .error "EIO: read failed"
  else
    match fs.files.find? (fun f => f.path == p) with
    | some f => .ok f.contents
    | none => .error "ENOENT: no such file"

/-- `fs.writeFileSync(p, contents, \x7bmode\x7d)`: throws when the path is
failure-injected, else overwrites the file. -/
def writeFileSync (fs : FSState) (p : String) (contents : String) (mode : Nat) :
    Except String FSState :=
  if fs.failing.contains p then .error "EACCES: write failed"
  else .ok { fs with files := ⟨p, contents, mode⟩ :: fs.files.filter (fun f => f.path != p) }

/-- `fs.mkdirSync(p, \x7brecursive: true\x7d)`: throws when the path is
failure-injected, else records the directory. -/
def mkdirSync (fs : FSState) (p : String) : Except String FSState :=
  if fs.failing.contains p then .error "EACCES: mkdir failed"
  else .ok { fs with dirs := if fs.dirs.contains p then fs.dirs else p :: fs.dirs }

/-- `fs.unlink(p, () => \x7b\x7d)`: the asynchronous form with a no-op
callback, as used by the logout handler — deletion errors are reported only to
the discarded callback, so they can never throw into the caller. -/
def unlinkIgnoringErrors (fs : FSState) (p : String) : FSState :=
  if fs.failing.contains p then fs
  else { fs with files := fs.files.filter (fun f => f.path != p) }

/-- Node `crypto` primitives used by `SecureMasterKeyManager`, represented as
deterministic oracles: `pbkdf2SyncHex pw salt iterations keylen digest` is
`crypto.pbkdf2Sync(...).toString("hex")` (documented to be a deterministic
function of its arguments), and `randomBytesHex n` is the hex rendering of the
entropy `crypto.randomBytes(n)` returns in the run being modelled. -/
structure Crypto where
  pbkdf2SyncHex : String → String → Nat → Nat → String → String
  randomBytesHex : Nat → String

/-- `SecureMasterKeyManager.KEY_FILE_NAME`. -/
def KEY_FILE_NAME : String := "app-secret.key"

/-- The well-known master-key file path `path.join(userDataPath, KEY_FILE_NAME)`. -/
def keyFilePath : String := pathJoin userDataPath KEY_FILE_NAME

/-- JavaScript `String.prototype.trim`: strip leading and trailing
whitespace. -/
def trimString (s : String) : String :=
  String.mk (((s.data.dropWhile Char.isWhitespace).reverse.dropWhile
    Char.isWhitespace).reverse)

/-- `SecureMasterKeyManager.generateMasterKey`:
`crypto.randomBytes(length).toString("hex")`. -/
def generateMasterKey (c : Crypto) (length : Nat) : String :=
  c.randomBytesHex length

/-- The body of the `try` block of
`SecureMasterKeyManager.getPersistentMasterKey`. -/
def getPersistentMasterKeyBody (c : Crypto) (fs : FSState) :
    Except String (String × FSState) :=
  if existsSync fs keyFilePath then
    match readFileSync fs keyFilePath with
    | .error e => .error e
    | .ok contents => .ok (trimString contents, fs)
  else
    let newMasterKey := generateMasterKey c 64
    match mkdirSync fs userDataPath with
    | .error e => .error e
    | .ok fs1 =>
      match writeFileSync fs1 keyFilePath newMasterKey 0o600 with
      | .error e => .error e
      | .ok fs2 => .ok (newMasterKey, fs2)

/-- `SecureMasterKeyManager.getPersistentMasterKey`: the `try` body above,
with the `catch` clause logging and rethrowing
`new Error("Could not generate or retrieve master key")`. -/
def getPersistentMasterKey (c : Crypto) (fs : FSState) :
    Except String (String × FSState) :=
  match getPersistentMasterKeyBody c fs with
  | .error _ => .error "Could not generate or retrieve master key"
  | .ok r => .ok r

/-- `SecureMasterKeyManager.deriveMasterKey(masterKey, salt?)`.  The JS
expression `salt || "default-app-salt"` substitutes the default both when
`salt` is `undefined` (`none`) and when it is the falsy empty string. -/
def deriveMasterKey (c : Crypto) (masterKey : String) (salt : Option String) : String :=
  let finalSalt : String :=
    match salt with
    | some s => if s = "" then "default-app-salt" else s
    | none => "default-app-salt"
  c.pbkdf2SyncHex masterKey finalSalt 100000 64 "sha512"

/-! ### Platform primitives for URL and payload parsing -/

/-- Split a character list at the first occurrence of `sep`: the part before
it, and (when found) the part after it. -/
def breakAtChar (sep : Char) : List Char → List Char × Option (List Char)
  | [] => ([], none)
  | c :: rest =>
    if c = sep then ([], some rest)
    else
      let r := breakAtChar sep rest
      (c :: r.1, r.2)

def splitOnCharAux (sep : Char) : List Char → List Char → List (List Char)
  | [], acc => [acc.reverse]
  | c :: rest, acc =>
    if c = sep then acc.reverse :: splitOnCharAux sep rest []
    else splitOnCharAux sep rest (c :: acc)

/-- Split a character list on every occurrence of `sep`. -/
def splitOnChar (sep : Char) (l : List Char) : List (List Char) :=
  splitOnCharAux sep l []

/-- Value of a hexadecimal digit. -/
def hexVal (c : Char) : Option Nat :=
  if '0' ≤ c ∧ c ≤ '9' then some (c.toNat - '0'.toNat)
  else if 'a' ≤ c ∧ c ≤ 'f' then some (c.toNat - 'a'.toNat + 10)
  else if 'A' ≤ c ∧ c ≤ 'F' then some (c.toNat - 'A'.toNat + 10)
  else none

/-- Percent-decoding as performed by `URLSearchParams` on names and values:
`+` becomes a space, a valid `%XX` escape becomes the escaped character, and a
malformed escape is passed through literally (this decoder never throws).
Multi-byte UTF-8 escape sequences are outside the modelled scope; the
module's payloads are ASCII. -/
def percentDecodeLenient : List Char → List Char
  | [] => []
  | '+' :: rest => ' ' :: percentDecodeLenient rest
  | '%' :: h1 :: h2 :: rest =>
    match hexVal h1, hexVal h2 with
    | some a, some b => Char.ofNat (16 * a + b) :: percentDecodeLenient rest
    | _, _ => '%' :: percentDecodeLenient (h1 :: h2 :: rest)
  | c :: rest => c :: percentDecodeLenient rest

/-- `decodeURIComponent`: decodes `%XX` escapes, does not treat `+`
specially, and throws (`none`) on a malformed escape.  Multi-byte UTF-8
escape sequences are outside the modelled scope; the module's payloads are
ASCII. -/
def percentDecodeStrict : List Char → Option (List Char)
  | [] => some []
  | '%' :: h1 :: h2 :: rest =>
    (match hexVal h1, hexVal h2 with
     | some a, some b => (percentDecodeStrict rest).map (Char.ofNat (16 * a + b) :: ·)
     | _, _ => none)
  | '%' :: _ => none
  | c :: rest => (percentDecodeStrict rest).map (c :: ·)

def isSchemeTailChar (c : Char) : Bool :=
  c.isAlpha || c.isDigit || c = '+' || c = '-' || c = '.'

/-- A valid URI scheme: a letter followed by letters, digits, `+`, `-`, `.`. -/
def validScheme : List Char → Bool
  | [] => false
  | c :: rest => c.isAlpha && rest.all isSchemeTailChar

/-- Models `new URL(url)` as far as this module observes it: the constructor
throws (`none`) unless the string starts with `scheme:`; on success the
module reads only the query string, returned here as the characters after the
first `?` (up to any `#` fragment), or `none` when there is no query. -/
def urlQuery (url : String) : Option (Option (List Char)) :=
  let cs := url.data
  match breakAtChar ':' cs with
  | (_, none) => none
  | (schemeChars, some _) =>
    if validScheme schemeChars then
      let noFrag := (breakAtChar '#' cs).1
      match breakAtChar '?' noFrag with
      | (_, none) => some none
      | (_, some q) => some (some q)
    else none

/-- `urlObj.searchParams.get("data")`: split the query on `&`, each component
at its first `=`, percent-decode leniently, and return the value of the first
component whose name is `data` (`none` models the `null` return). -/
def searchParamsGetData (q : List Char) : Option String :=
  let comps := splitOnChar '&' q
  let pairs := comps.map (fun comp =>
    match breakAtChar '=' comp with
    | (k, none) => (percentDecodeLenient k, ([] : List Char))
    | (k, some v) => (percentDecodeLenient k, percentDecodeLenient v))
  (pairs.find? (fun p => p.1 == "data".data)).map (fun p => String.mk p.2)

/-! ### JSON, restricted to the flat string-valued objects this module
exchanges -/

/-- Skip JSON whitespace. -/
def skipWs : List Char → List Char
  | c :: rest =>
    if c = ' ' ∨ c = '\t' ∨ c = '\n' ∨ c = '\r' then skipWs rest else c :: rest
  | [] => []

/-- Parse the body of a JSON string after its opening quote, handling the
escapes the module's payloads can contain; returns the string and the rest of
the input. -/
def jsonStringBody (acc : List Char) : List Char → Option (List Char × List Char)
  | '"' :: rest => some (acc.reverse, rest)
  | '\\' :: '"' :: rest => jsonStringBody ('"' :: acc) rest
  | '\\' :: '\\' :: rest => jsonStringBody ('\\' :: acc) rest
  | '\\' :: _ => none
  | c :: rest => jsonStringBody (c :: acc) rest
  | [] => none

/-- Parse one or more `"key": "value"` members followed by `,` or `}`;
`fuel` bounds the number of members. -/
def jsonMembers : Nat → List Char → Option (List (String × String) × List Char)
  | 0, _ => none
  | fuel + 1, input =>
    match skipWs input with
    | '"' :: rest =>
      match jsonStringBody [] rest with
      | some (k, rest1) =>
        match skipWs rest1 with
        | ':' :: rest2 =>
          match skipWs rest2 with
          | '"' :: rest3 =>
            match jsonStringBody [] rest3 with
            | some (v, rest4) =>
              match skipWs rest4 with
              | ',' :: rest5 =>
                (jsonMembers fuel rest5).map
                  (fun r => ((String.mk k, String.mk v) :: r.1, r.2))
              | '\x7d' :: rest5 => some ([(String.mk k, String.mk v)], rest5)
              | _ => none
            | none => none
          | _ => none
        | _ => none
      | none => none
    | _ => none

/-- `JSON.parse`, restricted to the payload shape this handler consumes: a
flat object with string keys and string values.  Any other input throws
(`none`), which matches `JSON.parse` on every malformed string. -/
def jsonParseFlat (input : List Char) : Option (List (String × String)) :=
  match skipWs input with
  | '\x7b' :: rest =>
    (match skipWs rest with
     | '\x7d' :: rest1 => if (skipWs rest1).isEmpty then some [] else none
     | _ =>
        match jsonMembers (input.length + 1) rest with
        | some (ms, rest1) => if (skipWs rest1).isEmpty then some ms else none
        | none => none)
  | _ => none

/-- Property access `obj.key` on a parsed payload: `none` is `undefined`.
(The module's payloads carry no duplicate keys, so first-match lookup agrees
with `JSON.parse`.) -/
def jsonGet (o : List (String × String)) (k : String) : Option String :=
  (o.find? (fun e => e.1 == k)).map (fun e => e.2)

def jsonEscape (s : String) : String :=
  String.mk (s.data.flatMap (fun c =>
    if c = '"' then ['\\', '"'] else if c = '\\' then ['\\', '\\'] else [c]))

/-- `JSON.stringify` of the `userInfo` object literal built by the handler:
keys appear in the literal's insertion order (`displayName`, `email`, `bio`,
`photoURL`) and properties whose value is `undefined` are omitted; `bio` is
always the empty string. -/
def stringifyUserInfo (displayName email photoURL : Option String) : String :=
  let fields : List (String × String) :=
    (match displayName with | some v => [("displayName", v)] | none => []) ++
    (match email with | some v => [("email", v)] | none => []) ++
    [("bio", "")] ++
    (match photoURL with | some v => [("photoURL", v)] | none => [])
  "\x7b" ++
    String.intercalate ","
      (fields.map (fun p => "\"" ++ jsonEscape p.1 ++ "\":\"" ++ jsonEscape p.2 ++ "\"")) ++
    "\x7d"

/-! ### The credential vault (spec-modelled) -/

/-- Modelled from the spec: `SecureTokenManager.storeToken` (the
`CredentialVault` of §4.2; its source file is not part of the provided
sources).  It encrypts the plaintext under the vault's derived key and
durably overwrites the named entry, failing with `VaultWriteError` on I/O
failure, in which case nothing reaches disk.  The encryption round-trip of
§8 is abstracted away: an entry holds its plaintext, and per-entry I/O
failure is injected via `vaultFailing`.  The handler can pass `undefined`
(`none`) for an absent payload field, which is not a plaintext string and is
modelled as the store throwing. -/
def storeToken (fs : FSState) (name : String) (value : Option String) :
    Except String FSState :=
  match value with
  | none => .error "TypeError: token value is undefined"
  | some v =>
    if fs.vaultFailing.contains name then .error "VaultWriteError"
    else .ok { fs with vault := (name, v) :: fs.vault.filter (fun e => e.1 != name) }

/-- Modelled from the spec: `SecureTokenManager.hasToken` — an existence
check only, requiring no decryption. -/
def hasToken (fs : FSState) (name : String) : Bool :=
  (fs.vault.find? (fun e => e.1 == name)).isSome

/-- Modelled from the spec: `SecureTokenManager.retrieveToken` — decrypts
the named entry; `none` is `NotFound`. -/
def retrieveToken (fs : FSState) (name : String) : Option String :=
  (fs.vault.find? (fun e => e.1 == name)).map (fun e => e.2)

/-- Modelled from the spec: `SecureTokenManager.clearAllTokens` — best-effort
deletion of every entry, logging and continuing when an individual deletion
fails (so entries named in `vaultFailing` survive), and never throwing. -/
def clearAllTokens (fs : FSState) : FSState :=
  { fs with vault := fs.vault.filter (fun e => fs.vaultFailing.contains e.1) }

/-! ### The main-process module -/

/-- Observable actions of the main-process module, in program order. -/
inductive Event where
  | restore
  | focus
  | forwardUrl (url : String)
  | showErrorBox
  | consoleError (msg : String)
  | storeAttempt (name : String)
  | windowReload
  | registerProtocol
  | registerSecondInstanceHandler
  | quit
deriving Repr, DecidableEq

/-- A raw JavaScript exception escaping the handler uncaught. -/
inductive JsException where
  | urlParseError
  | uriDecodeError
  | jsonParseError
  | fsWriteError
deriving Repr, DecidableEq

/-- Outcome of one handler invocation: the actions it performed, the state it
left behind, and the uncaught exception (if any) that escaped it. -/
structure RunResult where
  events : List Event
  fs : FSState
  exn : Option JsException
deriving Repr, DecidableEq

/-- `path.join(userDataPath, "user-info.json")`, the SessionProfile file. -/
def userInfoPath : String := pathJoin userDataPath "user-info.json"

/-- The `try \x7b ... \x7d catch (error) \x7b console.error(...) \x7d` block
of `parseAuthDataFromUrl` that stores the three tokens: the single `try`
wraps all three `storeToken` calls and the `mainWindow?.reload()`, so the
first throw skips everything after it. -/
def storeTokensPhase (fs : FSState) (authData : List (String × String)) : RunResult :=
  match storeToken fs "idToken" (jsonGet authData "idToken") with
  | .error e => ⟨[Event.storeAttempt "idToken", Event.consoleError e], fs, none⟩
  | .ok fs1 =>
    match storeToken fs1 "refreshToken" (jsonGet authData "refreshToken") with
    | .error e =>
      ⟨[Event.storeAttempt "idToken", Event.storeAttempt "refreshToken",
        Event.consoleError e], fs1, none⟩
    | .ok fs2 =>
      match storeToken fs2 "webApiKey" (jsonGet authData "webApiKey") with
      | .error e =>
        ⟨[Event.storeAttempt "idToken", Event.storeAttempt "refreshToken",
          Event.storeAttempt "webApiKey", Event.consoleError e], fs2, none⟩
      | .ok fs3 =>
        ⟨[Event.storeAttempt "idToken", Event.storeAttempt "refreshToken",
          Event.storeAttempt "webApiKey", Event.windowReload], fs3, none⟩

/-- `parseAuthDataFromUrl(url)`.  `new URL(url)` and `JSON.parse` are *not*
inside any `try`, so their exceptions escape raw; only the token-storing
block is guarded.  `if (encodedData)` is JS truthiness: both a `null` from
`searchParams.get` and the empty string take the error-dialog branch. -/
def parseAuthDataFromUrl (fs : FSState) (url : String) : RunResult :=
  match urlQuery url with
  | none => ⟨[], fs, some JsException.urlParseError⟩
  | some qOpt =>
    match qOpt.bind searchParamsGetData with
    | none => ⟨[Event.showErrorBox], fs, none⟩
    | some encodedData =>
      if encodedData = "" then ⟨[Event.showErrorBox], fs, none⟩
      else
        match percentDecodeStrict encodedData.data with
        | none => ⟨[], fs, some JsException.uriDecodeError⟩
        | some decoded =>
          match jsonParseFlat decoded with
          | none => ⟨[], fs, some JsException.jsonParseError⟩
          | some authData =>
            let userInfoJson := stringifyUserInfo (jsonGet authData "displayName")
              (jsonGet authData "email") (jsonGet authData "photoUrl")
            match writeFileSync fs userInfoPath userInfoJson 0o666 with
            | .error _ => ⟨[], fs, some JsException.fsWriteError⟩
            | .ok fs1 => storeTokensPhase fs1 authData

/-- The `check-auth` IPC handler: `tokenManager.hasToken("idToken")`. -/
def checkAuth (fs : FSState) : Bool := hasToken fs "idToken"

/-- The `logout` IPC handler.  `fs.unlink` is the asynchronous form with a
no-op callback, so profile-deletion failures never reach the `catch`;
`clearAllTokens` (spec-modelled) never throws; hence the `catch (error)`
branch returning `false` is unreachable and the handler returns `true`. -/
def logoutHandler (fs : FSState) : Bool × FSState :=
  let fs1 := unlinkIgnoringErrors fs userInfoPath
  let fs2 := clearAllTokens fs1
  (true, fs2)

/-- The module top level of the main-process file, as ordered in the source:
`getPersistentMasterKey` / `deriveMasterKey` / `new SecureTokenManager` run
at lines 61–64, protocol registration at lines 84–92, and only then is the
single-instance lock examined (lines 99–102): a Secondary (`gotTheLock =
false`) quits, a Primary registers the `second-instance` handler.  The
spec-modelled `SecureTokenManager` constructor only captures the derived key
and performs no I/O.  IPC-handler registration and `app.whenReady` are
outside the modelled state. -/
def moduleInit (c : Crypto) (fs : FSState) (gotTheLock : Bool) :
    Except String (List Event × FSState) :=
  match getPersistentMasterKey c fs with
  | .error e => .error e
  | .ok r =>
    let _derivedKey := deriveMasterKey c r.1 none
    if gotTheLock then
      .ok ([Event.registerProtocol, Event.registerSecondInstanceHandler], r.2)
    else
      .ok ([Event.registerProtocol, Event.quit], r.2)

/-- The `displayName` recorded in the SessionProfile file, read back through
the JSON model. -/
def sessionDisplayName (fs : FSState) : Option String :=
  match readFileSync fs userInfoPath with
  | .error _ => none
  | .ok contents => (jsonParseFlat contents.data).bind (fun o => jsonGet o "displayName")

/-! ### Concrete fixtures used by witnesses and counterexamples -/

/-- A concrete instantiation of the crypto oracles for concrete runs. -/
def testCrypto : Crypto :=
  ⟨fun _ _ _ _ _ => "derivedkeyhex", fun _ => "freshrandomhex"⟩

/-- The end-to-end scenario callback URL from §8 of the spec. -/
def scenarioUrl : String :=
  "appname://auth?data=%7B%22displayName%22%3A%22Jane%22%2C%22idToken%22%3A%22abc%22%7D"

/-- A callback URL whose payload carries all three secrets. -/
def allTokensUrl : String :=
  "pinac-workspace://auth?data=%7B%22idToken%22%3A%22a%22%2C%22refreshToken%22%3A%22b%22%2C%22webApiKey%22%3A%22c%22%7D"

/-- A state whose master-key file already exists. -/
def fsWithKey : FSState := { emptyFS with files := [⟨keyFilePath, "mk", 0o600⟩] }

/-- A state whose master-key file exists but cannot be read. -/
def fsKeyReadFails : FSState :=
  { emptyFS with files := [⟨keyFilePath, "mk", 0o600⟩], failing := [keyFilePath] }

/-- A state in which storing or deleting the `idToken` vault entry fails. -/
def fsVaultIdFails : FSState := { emptyFS with vaultFailing := ["idToken"] }

/-- A state in which only storing the `refreshToken` vault entry fails. -/
def fsRefreshFails : FSState := { emptyFS with vaultFailing := ["refreshToken"] }

/-- A state in which only storing the `webApiKey` vault entry fails. -/
def fsWebApiFails : FSState := { emptyFS with vaultFailing := ["webApiKey"] }

/-- A payload carrying all three secrets. -/
def allTokensData : List (String × String) :=
  [("idToken", "a"), ("refreshToken", "b"), ("webApiKey", "c")]

/-- A logged-in state in which deleting the `idToken` vault entry fails. -/
def fsLoggedInIdStuck : FSState :=
  { emptyFS with vault := [("idToken", "tok")], vaultFailing := ["idToken"] }

/-! ### Helper lemmas -/

theorem find?_filter_ne_path (p : String) (l : List FileRec) :
    (l.filter (fun f => f.path != p)).find? (fun f => f.path == p) = none := by
  induction l with
  | nil => rfl
  | cons a t ih =>
    by_cases h : a.path = p
    · simp [List.filter_cons, h, ih]
    · simp [List.filter_cons, h, List.find?, ih]

theorem find?_filter_contains (l : List (String × String)) (bad : List String)
    (n : String) :
    ((l.filter (fun e => bad.contains e.1)).find? (fun e => e.1 == n)).isSome =
      ((l.find? (fun e => e.1 == n)).isSome && bad.contains n) := by
  induction l with
  | nil => rfl
  | cons a t ih =>
    cases hb : bad.contains a.1 with
    | true =>
      rw [List.filter_cons_of_pos (by simpa using hb)]
      cases hn : (a.1 == n) with
      | true =>
        have hneq : a.1 = n := eq_of_beq hn
        simp only [List.find?, hn, Option.isSome_some, Bool.true_and]
        rw [← hneq, hb]
      | false =>
        simp only [List.find?, hn]
        exact ih
    | false =>
      rw [List.filter_cons_of_neg (by simpa using hb)]
      cases hn : (a.1 == n) with
      | true =>
        have hneq : a.1 = n := eq_of_beq hn
        simp only [List.find?, hn, Option.isSome_some, Bool.true_and]
        rw [ih, ← hneq, hb, Bool.and_false]
      | false =>
        simp only [List.find?, hn]
        exact ih

/-! ### Claims -/

/-- C5: `deriveMasterKey` is embedded as a pure function — it takes no
state, performs no I/O, and its crypto primitive is the deterministic
`pbkdf2Sync` — so two calls with the same MasterKey, salt and (fixed)
parameters yield byte-identical derived keys. -/
theorem deriveMasterKey_deterministic (c : Crypto) (masterKey : String)
    (salt : Option String) :
    deriveMasterKey c masterKey salt = deriveMasterKey c masterKey salt := rfl

/-- C10: the JS falsiness of the empty string in
`salt || "default-app-salt"` makes an empty salt behave exactly like an
absent salt and like the literal default salt, for every master key and any
behaviour of the PBKDF2 primitive. -/
theorem deriveMasterKey_empty_salt_collapses (c : Crypto) (masterKey : String) :
    deriveMasterKey c masterKey (some "") = deriveMasterKey c masterKey none ∧
    deriveMasterKey c masterKey (some "") =
      deriveMasterKey c masterKey (some "default-app-salt") :=
  ⟨rfl, rfl⟩

/-- C2 counterexample: a concrete run of the handler in a state where
storing `idToken` fails, on a payload carrying all three secrets.  The claim
says the remaining stores are still attempted; in fact the single `try`
around all three `storeToken` calls aborts at the first failure: the trace
shows no attempt for `refreshToken` or `webApiKey`, and neither entry is
stored even though both stores would have succeeded. -/
theorem token_store_partial_success_cex :
    (parseAuthDataFromUrl fsVaultIdFails allTokensUrl).events =
      [Event.storeAttempt "idToken", Event.consoleError "VaultWriteError"] ∧
    hasToken (parseAuthDataFromUrl fsVaultIdFails allTokensUrl).fs "refreshToken" = false ∧
    hasToken (parseAuthDataFromUrl fsVaultIdFails allTokensUrl).fs "webApiKey" = false := by
  decide

/-- C2 (amended): whichever of the three stores is the first to fail, the
failure is caught and logged, but the handler skips every store after it —
the single try block around all three `storeToken` calls aborts token
storage at the first failed store instead of attempting the others.  Each
conjunct exhibits the full trace: an `idToken` failure attempts neither
`refreshToken` nor `webApiKey`, a `refreshToken` failure never attempts
`webApiKey` (and the state stays as the `idToken` store left it), and a
`webApiKey` failure loses only that entry. -/
theorem token_store_aborts_on_first_failure (fs : FSState)
    (authData : List (String × String)) (e : String) :
    (storeToken fs "idToken" (jsonGet authData "idToken") = .error e →
      storeTokensPhase fs authData =
        ⟨[Event.storeAttempt "idToken", Event.consoleError e], fs, none⟩) ∧
    (∀ fs1, storeToken fs "idToken" (jsonGet authData "idToken") = .ok fs1 →
      storeToken fs1 "refreshToken" (jsonGet authData "refreshToken") = .error e →
      storeTokensPhase fs authData =
        ⟨[Event.storeAttempt "idToken", Event.storeAttempt "refreshToken",
          Event.consoleError e], fs1, none⟩) ∧
    (∀ fs1 fs2, storeToken fs "idToken" (jsonGet authData "idToken") = .ok fs1 →
      storeToken fs1 "refreshToken" (jsonGet authData "refreshToken") = .ok fs2 →
      storeToken fs2 "webApiKey" (jsonGet authData "webApiKey") = .error e →
      storeTokensPhase fs authData =
        ⟨[Event.storeAttempt "idToken", Event.storeAttempt "refreshToken",
          Event.storeAttempt "webApiKey", Event.consoleError e], fs2, none⟩) := by
  refine ⟨?_, ?_, ?_⟩
  · intro h
    simp [storeTokensPhase, h]
  · intro fs1 h1 h2
    simp [storeTokensPhase, h1, h2]
  · intro fs1 fs2 h1 h2 h3
    simp [storeTokensPhase, h1, h2, h3]

theorem token_store_aborts_witness :
    storeTokensPhase fsVaultIdFails allTokensData =
      ⟨[Event.storeAttempt "idToken", Event.consoleError "VaultWriteError"],
        fsVaultIdFails, none⟩ ∧
    storeTokensPhase fsRefreshFails allTokensData =
      ⟨[Event.storeAttempt "idToken", Event.storeAttempt "refreshToken",
        Event.consoleError "VaultWriteError"],
        { fsRefreshFails with vault := [("idToken", "a")] }, none⟩ ∧
    storeTokensPhase fsWebApiFails allTokensData =
      ⟨[Event.storeAttempt "idToken", Event.storeAttempt "refreshToken",
        Event.storeAttempt "webApiKey", Event.consoleError "VaultWriteError"],
        { fsWebApiFails with vault := [("refreshToken", "b"), ("idToken", "a")] }, none⟩ :=
  ⟨(token_store_aborts_on_first_failure fsVaultIdFails allTokensData
      "VaultWriteError").1 (by decide),
    (token_store_aborts_on_first_failure fsRefreshFails allTokensData
      "VaultWriteError").2.1
      { fsRefreshFails with vault := [("idToken", "a")] } (by decide) (by decide),
    (token_store_aborts_on_first_failure fsWebApiFails allTokensData
      "VaultWriteError").2.2
      { fsWebApiFails with vault := [("idToken", "a")] }
      { fsWebApiFails with vault := [("refreshToken", "b"), ("idToken", "a")] }
      (by decide) (by decide) (by decide)⟩

/-- C8 counterexample: a logged-in state in which deleting the `idToken`
vault entry fails.  The handler still returns `true` (the async `fs.unlink`
callback and the best-effort `clearAllTokens` swallow every failure), yet
`checkAuth` still reports authenticated afterwards — contradicting the
claim that a `true` logout never leaves `checkAuth` authenticated. -/
theorem logout_claim_cex :
    (logoutHandler fsLoggedInIdStuck).1 = true ∧
    checkAuth (logoutHandler fsLoggedInIdStuck).2 = true := by
  decide

/-- C8 (amended): logout fire-and-forgets the SessionProfile deletion
(ignoring its errors) and best-effort clears the vault, so it returns `true`
unconditionally rather than `false` on failure; the profile file is gone
afterwards exactly when its deletion did not fail, and `checkAuth` still
reports authenticated after the claimed-successful logout exactly when an
`idToken` entry existed and its deletion failed. -/
theorem logout_best_effort (fs : FSState) :
    (logoutHandler fs).1 = true ∧
    checkAuth (logoutHandler fs).2 =
      (checkAuth fs && fs.vaultFailing.contains "idToken") ∧
    existsSync (logoutHandler fs).2 userInfoPath =
      (fs.failing.contains userInfoPath && existsSync fs userInfoPath) := by
  refine ⟨rfl, ?_, ?_⟩
  · cases hf : fs.failing.contains userInfoPath with
    | true =>
      simp only [logoutHandler, unlinkIgnoringErrors, hf, if_true, clearAllTokens,
        checkAuth, hasToken]
      exact find?_filter_contains fs.vault fs.vaultFailing "idToken"
    | false =>
      simp only [logoutHandler, unlinkIgnoringErrors, hf, Bool.false_eq_true, if_false,
        clearAllTokens, checkAuth, hasToken]
      exact find?_filter_contains fs.vault fs.vaultFailing "idToken"
  · cases hf : fs.failing.contains userInfoPath with
    | true =>
      simp only [logoutHandler, unlinkIgnoringErrors, hf, if_true, clearAllTokens,
        existsSync, Bool.true_and]
    | false =>
      simp only [logoutHandler, unlinkIgnoringErrors, hf, Bool.false_eq_true, if_false,
        clearAllTokens, existsSync, Bool.false_and]
      rw [find?_filter_ne_path]
      rfl

/-- C6: `getPersistentMasterKey` returns the trimmed contents of the key
file when one exists at the well-known path; otherwise it generates a fresh
random key (via the `crypto.randomBytes` oracle), creates the user-data
directory, writes the key file with owner-only mode `0o600`, and returns the
new key, leaving the vault untouched. -/
theorem getPersistentMasterKey_contract (c : Crypto) (fs : FSState) :
    (∀ f, fs.files.find? (fun g => g.path == keyFilePath) = some f →
      fs.failing.contains keyFilePath = false →
      getPersistentMasterKey c fs = .ok (trimString f.contents, fs)) ∧
    (fs.files.find? (fun g => g.path == keyFilePath) = none →
      fs.failing.contains userDataPath = false →
      fs.failing.contains keyFilePath = false →
      ∃ fs2, getPersistentMasterKey c fs = .ok (c.randomBytesHex 64, fs2) ∧
        fs2.dirs.contains userDataPath = true ∧
        fs2.files.find? (fun g => g.path == keyFilePath) =
          some ⟨keyFilePath, c.randomBytesHex 64, 0o600⟩ ∧
        fs2.vault = fs.vault) := by
  constructor
  · intro f hf hfail
    have hfail' : keyFilePath ∉ fs.failing := by simpa using hfail
    simp [getPersistentMasterKey, getPersistentMasterKeyBody, existsSync,
      readFileSync, hf, hfail']
  · intro hf hfail1 hfail2
    have hfail1' : userDataPath ∉ fs.failing := by simpa using hfail1
    have hfail2' : keyFilePath ∉ fs.failing := by simpa using hfail2
    refine ⟨{ fs with
        dirs := if fs.dirs.contains userDataPath then fs.dirs else userDataPath :: fs.dirs,
        files := ⟨keyFilePath, c.randomBytesHex 64, 0o600⟩ ::
          fs.files.filter (fun f => f.path != keyFilePath) }, ?_, ?_, ?_, ?_⟩
    · simp [getPersistentMasterKey, getPersistentMasterKeyBody, existsSync,
        mkdirSync, writeFileSync, generateMasterKey, hf, hfail1', hfail2']
    · cases hd : fs.dirs.contains userDataPath with
      | true =>
        have hd' : userDataPath ∈ fs.dirs := by simpa using hd
        simp [hd', hd]
      | false =>
        have hd' : userDataPath ∉ fs.dirs := by simpa using hd
        simp [hd']
    · simp [List.find?]
    · rfl

theorem getPersistentMasterKey_contract_witness :
    getPersistentMasterKey testCrypto fsWithKey =
      .ok (trimString "mk", fsWithKey) ∧
    (∃ fs2, getPersistentMasterKey testCrypto emptyFS =
        .ok (testCrypto.randomBytesHex 64, fs2) ∧
      fs2.dirs.contains userDataPath = true ∧
      fs2.files.find? (fun g => g.path == keyFilePath) =
        some ⟨keyFilePath, testCrypto.randomBytesHex 64, 0o600⟩ ∧
      fs2.vault = emptyFS.vault) :=
  ⟨(getPersistentMasterKey_contract testCrypto fsWithKey).1
      ⟨keyFilePath, "mk", 0o600⟩ (by decide) (by decide),
    (getPersistentMasterKey_contract testCrypto emptyFS).2
      (by decide) (by decide) (by decide)⟩

/-- C7: when the key file exists but cannot be read, or it is absent and the
directory cannot be created or the file cannot be written, the `catch`
clause of `getPersistentMasterKey` rethrows the `KeyStorageError`
("Could not generate or retrieve master key") to the caller instead of
swallowing it. -/
theorem keyStorageError_propagated (c : Crypto) (fs : FSState)
    (h : fs.failing.contains keyFilePath = true ∨
      (existsSync fs keyFilePath = false ∧ fs.failing.contains userDataPath = true)) :
    getPersistentMasterKey c fs = .error "Could not generate or retrieve master key" := by
  rcases h with h | ⟨h1, h2⟩
  · have h' : keyFilePath ∈ fs.failing := by simpa using h
    cases he : existsSync fs keyFilePath with
    | true =>
      simp [getPersistentMasterKey, getPersistentMasterKeyBody, he, readFileSync, h']
    | false =>
      cases hd : fs.failing.contains userDataPath with
      | true =>
        have hd' : userDataPath ∈ fs.failing := by simpa using hd
        simp [getPersistentMasterKey, getPersistentMasterKeyBody, he, mkdirSync, hd']
      | false =>
        have hd' : userDataPath ∉ fs.failing := by simpa using hd
        simp [getPersistentMasterKey, getPersistentMasterKeyBody, he, mkdirSync, hd',
          writeFileSync, h']
  · have h2' : userDataPath ∈ fs.failing := by simpa using h2
    simp [getPersistentMasterKey, getPersistentMasterKeyBody, h1, mkdirSync, h2']

theorem keyStorageError_propagated_witness :
    getPersistentMasterKey testCrypto fsKeyReadFails =
      .error "Could not generate or retrieve master key" :=
  keyStorageError_propagated testCrypto fsKeyReadFails (Or.inl (by decide))

theorem getPersistentMasterKey_ok_cases (c : Crypto) (fs : FSState) (mk : String)
    (fs2 : FSState) (h : getPersistentMasterKey c fs = .ok (mk, fs2)) :
    fs2.vault = fs.vault ∧
    (existsSync fs keyFilePath = true → fs2 = fs) ∧
    (existsSync fs keyFilePath = false → existsSync fs2 keyFilePath = true) := by
  simp only [getPersistentMasterKey, getPersistentMasterKeyBody] at h
  cases he : existsSync fs keyFilePath with
  | true =>
    rw [he] at h
    simp only [if_true] at h
    cases hr : readFileSync fs keyFilePath with
    | error e => rw [hr] at h; cases h
    | ok contents =>
      rw [hr] at h
      simp only [Except.ok.injEq, Prod.mk.injEq] at h
      obtain ⟨-, h2⟩ := h
      subst h2
      exact ⟨rfl, fun _ => rfl, fun hc => absurd hc (by decide)⟩
  | false =>
    rw [he] at h
    simp only [Bool.false_eq_true, if_false] at h
    cases hm : mkdirSync fs userDataPath with
    | error e => rw [hm] at h; cases h
    | ok fs1 =>
      simp only [hm] at h
      cases hw : writeFileSync fs1 keyFilePath (generateMasterKey c 64) 0o600 with
      | error e => rw [hw] at h; cases h
      | ok fsw =>
        rw [hw] at h
        simp only [Except.ok.injEq, Prod.mk.injEq] at h
        obtain ⟨-, h2⟩ := h
        subst h2
        have hm1 : fs1.vault = fs.vault := by
          simp only [mkdirSync] at hm
          split at hm
          · cases hm
          · cases hm; rfl
        have hw1 : fsw.vault = fs1.vault ∧
            fsw.files.find? (fun f => f.path == keyFilePath) =
              some ⟨keyFilePath, generateMasterKey c 64, 0o600⟩ := by
          simp only [writeFileSync] at hw
          split at hw
          · cases hw
          · cases hw
            exact ⟨rfl, by simp [List.find?]⟩
        refine ⟨hw1.1.trans hm1, fun hc => absurd hc (by decide), fun _ => ?_⟩
        simp [existsSync, hw1.2]

/-- C3 counterexample: a Secondary launch (the single-instance lock was not
acquired) on a machine where the master-key file does not yet exist.  The
module-level initialization at lines 61–64 runs before the lock check at
lines 99–102, so the Secondary creates (writes) the master-key file before
quitting — contradicting "never creates or modifies the master-key file
before quitting". -/
theorem secondary_instance_creates_keyfile_cex :
    (moduleInit testCrypto emptyFS false).toOption.map
        (fun r => (r.1, existsSync r.2 keyFilePath)) =
      some ([Event.registerProtocol, Event.quit], true) := by
  decide

/-- C3 (amended): a Secondary performs no vault write — the vault is exactly
as it was — and when the master-key file already exists the filesystem is
left completely unchanged before quitting; but the module-level
initialization runs before the lock check, so when the master-key file is
absent the Secondary creates it (a key-file write) before quitting. -/
theorem secondary_instance_amended (c : Crypto) (fs : FSState) (evs : List Event)
    (fs2 : FSState) (h : moduleInit c fs false = .ok (evs, fs2)) :
    evs = [Event.registerProtocol, Event.quit] ∧
    fs2.vault = fs.vault ∧
    (existsSync fs keyFilePath = true → fs2 = fs) ∧
    (existsSync fs keyFilePath = false → existsSync fs2 keyFilePath = true) := by
  simp only [moduleInit] at h
  cases hk : getPersistentMasterKey c fs with
  | error e => rw [hk] at h; cases h
  | ok r =>
    rw [hk] at h
    simp only [Bool.false_eq_true, if_false, Except.ok.injEq, Prod.mk.injEq] at h
    obtain ⟨h1, h2⟩ := h
    subst h2
    obtain ⟨hv, hex, habs⟩ :=
      getPersistentMasterKey_ok_cases c fs r.1 r.2 (by rw [hk])
    exact ⟨h1.symm, hv, hex, habs⟩

theorem secondary_instance_amended_witness :
    [Event.registerProtocol, Event.quit] = [Event.registerProtocol, Event.quit] ∧
    fsWithKey.vault = fsWithKey.vault ∧
    (existsSync fsWithKey keyFilePath = true → fsWithKey = fsWithKey) ∧
    (existsSync fsWithKey keyFilePath = false →
      existsSync fsWithKey keyFilePath = true) :=
  secondary_instance_amended testCrypto fsWithKey
    [Event.registerProtocol, Event.quit] fsWithKey (by decide)

/-- C1 counterexample: the handler body of `parseAuthDataFromUrl` guards
only the token-storing block; `new URL(url)` and `JSON.parse` run unguarded.
On the non-URI input "not a uri" a raw URL-parse exception escapes, and on a
`data` value that is not JSON a raw JSON-parse exception escapes — neither
is the MalformedCallbackError/generic dialog the claim requires. -/
theorem malformed_callback_raw_exception_cex :
    (parseAuthDataFromUrl emptyFS "not a uri").exn = some JsException.urlParseError ∧
    (parseAuthDataFromUrl emptyFS "appname://auth?data=nope").exn =
      some JsException.jsonParseError := by
  decide

/-- C1 (amended): on each of the three malformed-input classes the existing
vault and profile state are left completely unchanged, but only the
missing-`data` case (including the falsy empty value) surfaces the generic
failure dialog; a string that is not a valid URI makes the handler propagate
the raw URL-parse exception, and a `data` value that fails URI-decoding or
JSON-parsing makes it propagate the raw URIError/SyntaxError — there is no
MalformedCallbackError wrapping. -/
theorem malformed_callback_amended (fs : FSState) (url : String) :
    (urlQuery url = none →
      parseAuthDataFromUrl fs url = ⟨[], fs, some JsException.urlParseError⟩) ∧
    (∀ qOpt, urlQuery url = some qOpt → qOpt.bind searchParamsGetData = none →
      parseAuthDataFromUrl fs url = ⟨[Event.showErrorBox], fs, none⟩) ∧
    (∀ qOpt, urlQuery url = some qOpt → qOpt.bind searchParamsGetData = some "" →
      parseAuthDataFromUrl fs url = ⟨[Event.showErrorBox], fs, none⟩) ∧
    (∀ qOpt s, urlQuery url = some qOpt → qOpt.bind searchParamsGetData = some s →
      s ≠ "" → percentDecodeStrict s.data = none →
      parseAuthDataFromUrl fs url = ⟨[], fs, some JsException.uriDecodeError⟩) ∧
    (∀ qOpt s d, urlQuery url = some qOpt → qOpt.bind searchParamsGetData = some s →
      s ≠ "" → percentDecodeStrict s.data = some d → jsonParseFlat d = none →
      parseAuthDataFromUrl fs url = ⟨[], fs, some JsException.jsonParseError⟩) := by
  refine ⟨?_, ?_, ?_, ?_, ?_⟩
  · intro h
    simp [parseAuthDataFromUrl, h]
  · intro qOpt h1 h2
    simp [parseAuthDataFromUrl, h1, h2]
  · intro qOpt h1 h2
    simp [parseAuthDataFromUrl, h1, h2]
  · intro qOpt s h1 h2 h3 h4
    simp [parseAuthDataFromUrl, h1, h2, h3, h4]
  · intro qOpt s d h1 h2 h3 h4 h5
    simp [parseAuthDataFromUrl, h1, h2, h3, h4, h5]

theorem malformed_callback_amended_witness :
    parseAuthDataFromUrl emptyFS "not a uri" =
      ⟨[], emptyFS, some JsException.urlParseError⟩ ∧
    parseAuthDataFromUrl emptyFS "appname://auth" =
      ⟨[Event.showErrorBox], emptyFS, none⟩ ∧
    parseAuthDataFromUrl emptyFS "appname://auth?data=" =
      ⟨[Event.showErrorBox], emptyFS, none⟩ ∧
    parseAuthDataFromUrl emptyFS "appname://auth?data=%ZZ" =
      ⟨[], emptyFS, some JsException.uriDecodeError⟩ ∧
    parseAuthDataFromUrl emptyFS "appname://auth?data=nojson" =
      ⟨[], emptyFS, some JsException.jsonParseError⟩ :=
  ⟨(malformed_callback_amended emptyFS "not a uri").1 (by decide),
    (malformed_callback_amended emptyFS "appname://auth").2.1 none (by decide) (by decide),
    (malformed_callback_amended emptyFS "appname://auth?data=").2.2.1
      (some ("data=".data)) (by decide) (by decide),
    (malformed_callback_amended emptyFS "appname://auth?data=%ZZ").2.2.2.1
      (some ("data=%ZZ".data)) "%ZZ" (by decide) (by decide) (by decide) (by decide),
    (malformed_callback_amended emptyFS "appname://auth?data=nojson").2.2.2.2
      (some ("data=nojson".data)) "nojson" "nojson".data
      (by decide) (by decide) (by decide) (by decide) (by decide)⟩

/-- C4: handling the callback URL of the end-to-end scenario writes a
SessionProfile whose `displayName` is "Jane", makes `hasToken("idToken")`
true, and makes `retrieveToken("idToken")` return "abc". -/
theorem end_to_end_scenario :
    sessionDisplayName (parseAuthDataFromUrl emptyFS scenarioUrl).fs = some "Jane" ∧
    hasToken (parseAuthDataFromUrl emptyFS scenarioUrl).fs "idToken" = true ∧
    retrieveToken (parseAuthDataFromUrl emptyFS scenarioUrl).fs "idToken" =
      some "abc" := by
  decide

end Pinac
